import Mathlib

/-
Verification of the `declaration_site` crate (a runtime resolver of the
source file/line where a function was declared, read out of the debug
information of the binaries loaded into the process).

The development is a shallow embedding of the repository's three source
files:
  * `src/symbolic_object/mod.rs`   — format detector (`peek`), `Object`,
    `Archive`, `ObjectDebugSession` and the `ObjectIterator`;
  * `src/symbolic_object/mono_archive.rs` — the single-object archive
    (`MonoArchive`, `MonoArchiveObjects`, the `Parse` trait);
  * `src/lib.rs` — the module scanner
    (`for_some_currently_loaded_rust_functions`, `declaration_by_name`)
    and `DeclarationSite` with its `TryFrom<&Function>` derivation.

External collaborators (the per-format binary parsers of
`symbolic_debuginfo`, `goblin`'s Mach-O magic reader, the demangler, the
shared-library enumerator and the file system) are modelled as explicit
environment records (`ObjEnv`, `ScanEnv`) of abstract types and
functions; every theorem quantifies over those environments, so the
results hold for arbitrary behaviour of the collaborators.  Machine
integers are modelled as `Nat` with an explicit `% 2 ^ 32` where the
source performs a `u32` cast.
-/

set_option autoImplicit false

namespace DeclSite

/-- A byte buffer (`&[u8]`); only lengths and the abstract format tests
ever inspect it, so bytes are plain naturals. -/
abbrev Bytes := List Nat

/-! ## Format detector and object facade (`src/symbolic_object/mod.rs`) -/

/-- `symbolic_debuginfo::FileFormat`: the closed format tag matched by
`Archive::parse` (the vendored code never constructs `Breakpad`, but the
variant exists and is matched). -/
inductive FileFormat where
  | Unknown
  | Breakpad
  | Elf
  | MachO
  | Pdb
  | Pe
  | SourceBundle
  | Wasm
deriving DecidableEq, Repr

/-- `goblin::mach::fat::FAT_MAGIC`. -/
def FAT_MAGIC : Nat := 0xcafebabe

/-- `goblin::mach::header::MH_MAGIC`. -/
def MH_MAGIC : Nat := 0xfeedface

/-- `goblin::mach::header::MH_CIGAM`. -/
def MH_CIGAM : Nat := 0xcefaedfe

/-- `goblin::mach::header::MH_MAGIC_64`. -/
def MH_MAGIC_64 : Nat := 0xfeedfacf

/-- `goblin::mach::header::MH_CIGAM_64`. -/
def MH_CIGAM_64 : Nat := 0xcffaedfe

/-- `data.pread_with::<u32>(offset, scroll::BE)`: succeeds exactly when
four bytes are available at `offset`, returning the big-endian value. -/
def preadU32BE (data : Bytes) (offset : Nat) : Option Nat :=
  match data.drop offset with
  | b0 :: b1 :: b2 :: b3 :: _ => some (((b0 * 256 + b1) * 256 + b2) * 256 + b3)
  | _ => none

/-- The external collaborators of the object facade: one abstract carrier
type per per-format object / archive / debug-session, the per-format
`test`, `parse` and `debug_session` capabilities of
`symbolic_debuginfo`, and `goblin`'s magic reader.  `ExtErr` stands for
the per-format error types (the source erases them into a boxed
`dyn Error` anyway, so one abstract type suffices). -/
structure ObjEnv where
  ElfObj : Type
  MachObj : Type
  PdbObj : Type
  PeObj : Type
  SrcObj : Type
  WasmObj : Type
  MachArch : Type
  DwarfSess : Type
  PdbSess : Type
  PeSess : Type
  SrcSess : Type
  ExtErr : Type
  elfTest : Bytes → Bool
  peTest : Bytes → Bool
  pdbTest : Bytes → Bool
  srcTest : Bytes → Bool
  wasmTest : Bytes → Bool
  parseMagic : Bytes → Option Nat
  machArchiveTest : Bytes → Bool
  machArchiveParse : Bytes → Except ExtErr MachArch
  machArchiveObjects : MachArch → List (Except ExtErr MachObj)
  elfParse : Bytes → Except ExtErr ElfObj
  pdbParse : Bytes → Except ExtErr PdbObj
  peParse : Bytes → Except ExtErr PeObj
  srcParse : Bytes → Except ExtErr SrcObj
  wasmParse : Bytes → Except ExtErr WasmObj
  elfSession : ElfObj → Except ExtErr DwarfSess
  machSession : MachObj → Except ExtErr DwarfSess
  pdbSession : PdbObj → Except ExtErr PdbSess
  peSession : PeObj → Except ExtErr PeSess
  srcSession : SrcObj → Except ExtErr SrcSess
  wasmSession : WasmObj → Except ExtErr DwarfSess

/-- `peek(data, archive)` from `src/symbolic_object/mod.rs:125`: tries the
format signatures in the fixed priority order Elf, Pe, Pdb, SourceBundle,
Wasm, then the Mach-O magic numbers; a fat Mach-O magic yields `MachO`
only when the fat header reads back and `archive` is set. -/
def peek (E : ObjEnv) (data : Bytes) (archive : Bool) : FileFormat :=
  if data.length < 16 then FileFormat.Unknown
  else if E.elfTest data then FileFormat.Elf
  else if E.peTest data then FileFormat.Pe
  else if E.pdbTest data then FileFormat.Pdb
  else if E.srcTest data then FileFormat.SourceBundle
  else if E.wasmTest data then FileFormat.Wasm
  else
    match E.parseMagic data with
    | some magic =>
      if magic = FAT_MAGIC then
        if (preadU32BE data 4).isSome && archive && E.machArchiveTest data
        then FileFormat.MachO
        else FileFormat.Unknown
      else if magic = MH_CIGAM_64 ∨ magic = MH_CIGAM ∨
              magic = MH_MAGIC_64 ∨ magic = MH_MAGIC
      then FileFormat.MachO
      else FileFormat.Unknown
    | none => FileFormat.Unknown

/-- `ObjectErrorRepr` from `src/symbolic_object/mod.rs:65`. -/
inductive ObjectErrorRepr (ε : Type) where
  | UnsupportedObject
  | Transparent (source : ε)
deriving DecidableEq

/-- `ObjectError` (`src/symbolic_object/mod.rs:74`): the opaque wrapper
around either the detector rejection or a boxed per-format error. -/
structure ObjectError (ε : Type) where
  repr : ObjectErrorRepr ε
deriving DecidableEq

/-- `ObjectError::new`. -/
def ObjectError.new {ε : Type} (repr : ObjectErrorRepr ε) : ObjectError ε :=
  ⟨repr⟩

/-- `ObjectError::transparent`. -/
def ObjectError.transparent {ε : Type} (source : ε) : ObjectError ε :=
  ⟨ObjectErrorRepr.Transparent source⟩

/-! ### `MonoArchive` (`src/symbolic_object/mono_archive.rs`) -/

/-- The `Parse` trait of `mono_archive.rs:14` (each impl delegates to the
external object's own `parse`/`test`). -/
structure Parse (P ε : Type) where
  parse : Bytes → Except ε P
  test : Bytes → Bool

/-- `MonoArchive<P>` (`mono_archive.rs:84`): just the stored buffer. -/
structure MonoArchive (P : Type) where
  data : Bytes

/-- `MonoArchive::object`: parses the stored buffer. -/
def MonoArchive.object {P ε : Type} (a : MonoArchive P) (pr : Parse P ε) :
    Except ε P :=
  pr.parse a.data

/-- `MonoArchiveObjects<P>` (`mono_archive.rs:142`): an `Option` holding
the already-computed parse result. -/
structure MonoArchiveObjects (P ε : Type) where
  st : Option (Except ε P)

/-- `MonoArchive::objects` (`mono_archive.rs:104`): note that it calls
`self.object()` — the parse happens here, when the iterator is built. -/
def MonoArchive.objects {P ε : Type} (a : MonoArchive P) (pr : Parse P ε) :
    MonoArchiveObjects P ε :=
  ⟨some (a.object pr)⟩

/-- `Iterator::next` for `MonoArchiveObjects`: `self.0.take()`. -/
def MonoArchiveObjects.next {P ε : Type} (it : MonoArchiveObjects P ε) :
    Option (Except ε P) × MonoArchiveObjects P ε :=
  (it.st, ⟨none⟩)

/-- `Iterator::size_hint` for `MonoArchiveObjects` (`mono_archive.rs:156`). -/
def MonoArchiveObjects.sizeHint {P ε : Type} (it : MonoArchiveObjects P ε) :
    Nat × Option Nat :=
  if it.st.isSome then (1, some 1) else (0, some 0)

/-- `MonoArchive::object_count` (`mono_archive.rs:109`). -/
def MonoArchive.object_count {P : Type} (_ : MonoArchive P) : Nat := 1

/-- Instrumented `MonoArchive::objects`: same result, paired with the
number of `Parse::parse` invocations the call performs.  The body of
`objects()` is `MonoArchiveObjects(Some(self.object()))`, and
`self.object()` is one `P::parse` call, so the count is 1. -/
def MonoArchive.objectsCounted {P ε : Type} (a : MonoArchive P)
    (pr : Parse P ε) : MonoArchiveObjects P ε × Nat :=
  (⟨some (a.object pr)⟩, 1)

/-- Instrumented `next`: `self.0.take()` performs no `Parse::parse`
invocation, so the count is 0. -/
def MonoArchiveObjects.nextCounted {P ε : Type} (it : MonoArchiveObjects P ε) :
    (Option (Except ε P) × MonoArchiveObjects P ε) × Nat :=
  (it.next, 0)

/-! ### `Object` and `Archive` -/

/-- `Object<'data>` (`src/symbolic_object/mod.rs:169`). -/
inductive Object (E : ObjEnv) where
  | Elf (o : E.ElfObj)
  | MachO (o : E.MachObj)
  | Pdb (o : E.PdbObj)
  | Pe (o : E.PeObj)
  | SourceBundle (o : E.SrcObj)
  | Wasm (o : E.WasmObj)

/-- `Object::file_format` (`src/symbolic_object/mod.rs:186`). -/
def Object.file_format {E : ObjEnv} : Object E → FileFormat
  | .Elf _ => FileFormat.Elf
  | .MachO _ => FileFormat.MachO
  | .Pdb _ => FileFormat.Pdb
  | .Pe _ => FileFormat.Pe
  | .SourceBundle _ => FileFormat.SourceBundle
  | .Wasm _ => FileFormat.Wasm

/-- `ObjectDebugSession` (`src/symbolic_object/mod.rs:380`): the four
session kinds; three object formats share the `Dwarf` constructor. -/
inductive ObjectDebugSession (E : ObjEnv) where
  | Dwarf (s : E.DwarfSess)
  | Pdb (s : E.PdbSess)
  | Pe (s : E.PeSess)
  | SourceBundle (s : E.SrcSess)

/-- Constructor tag of an `ObjectDebugSession` (measuring helper for the
dispatch claims; not present in the source). -/
inductive SessionKind where
  | Dwarf
  | Pdb
  | Pe
  | SourceBundle
deriving DecidableEq, Repr

/-- The constructor tag of a session value. -/
def ObjectDebugSession.kind {E : ObjEnv} : ObjectDebugSession E → SessionKind
  | .Dwarf _ => SessionKind.Dwarf
  | .Pdb _ => SessionKind.Pdb
  | .Pe _ => SessionKind.Pe
  | .SourceBundle _ => SessionKind.SourceBundle

/-- `Object::debug_session` (`src/symbolic_object/mod.rs:262`): per-format
dispatch; the Rust `map(...).map_err(ObjectError::transparent)` chains are
rendered as matches on the external session constructor result. -/
def Object.debug_session {E : ObjEnv} :
    Object E → Except (ObjectError E.ExtErr) (ObjectDebugSession E)
  | .Elf o =>
    match E.elfSession o with
    | .ok s => .ok (ObjectDebugSession.Dwarf s)
    | .error e => .error (ObjectError.transparent e)
  | .MachO o =>
    match E.machSession o with
    | .ok s => .ok (ObjectDebugSession.Dwarf s)
    | .error e => .error (ObjectError.transparent e)
  | .Pdb o =>
    match E.pdbSession o with
    | .ok s => .ok (ObjectDebugSession.Pdb s)
    | .error e => .error (ObjectError.transparent e)
  | .Pe o =>
    match E.peSession o with
    | .ok s => .ok (ObjectDebugSession.Pe s)
    | .error e => .error (ObjectError.transparent e)
  | .SourceBundle o =>
    match E.srcSession o with
    | .ok s => .ok (ObjectDebugSession.SourceBundle s)
    | .error e => .error (ObjectError.transparent e)
  | .Wasm o =>
    match E.wasmSession o with
    | .ok s => .ok (ObjectDebugSession.Dwarf s)
    | .error e => .error (ObjectError.transparent e)

/-- `ArchiveInner` (`src/symbolic_object/mod.rs:532`). -/
inductive ArchiveInner (E : ObjEnv) where
  | Elf (a : MonoArchive E.ElfObj)
  | MachO (a : E.MachArch)
  | Pdb (a : MonoArchive E.PdbObj)
  | Pe (a : MonoArchive E.PeObj)
  | SourceBundle (a : MonoArchive E.SrcObj)
  | Wasm (a : MonoArchive E.WasmObj)

/-- `Archive` (`src/symbolic_object/mod.rs:547`). -/
structure Archive (E : ObjEnv) where
  inner : ArchiveInner E

/-- Classifier of the inner variant (spec-side helper used to phrase
"non-Mach-O archive"; mirrors `Object::file_format`). -/
def Archive.format {E : ObjEnv} (a : Archive E) : FileFormat :=
  match a.inner with
  | .Elf _ => FileFormat.Elf
  | .MachO _ => FileFormat.MachO
  | .Pdb _ => FileFormat.Pdb
  | .Pe _ => FileFormat.Pe
  | .SourceBundle _ => FileFormat.SourceBundle
  | .Wasm _ => FileFormat.Wasm

/-- `Archive::peek` (`src/symbolic_object/mod.rs:551`): `peek(data, true)`. -/
def Archive.peek (E : ObjEnv) (data : Bytes) : FileFormat :=
  DeclSite.peek E data true

/-- `Archive::parse` (`src/symbolic_object/mod.rs:556`). -/
def Archive.parse (E : ObjEnv) (data : Bytes) :
    Except (ObjectError E.ExtErr) (Archive E) :=
  match Archive.peek E data with
  | FileFormat.Elf => .ok ⟨ArchiveInner.Elf ⟨data⟩⟩
  | FileFormat.MachO =>
    match E.machArchiveParse data with
    | .ok m => .ok ⟨ArchiveInner.MachO m⟩
    | .error e => .error (ObjectError.transparent e)
  | FileFormat.Pdb => .ok ⟨ArchiveInner.Pdb ⟨data⟩⟩
  | FileFormat.Pe => .ok ⟨ArchiveInner.Pe ⟨data⟩⟩
  | FileFormat.SourceBundle => .ok ⟨ArchiveInner.SourceBundle ⟨data⟩⟩
  | FileFormat.Wasm => .ok ⟨ArchiveInner.Wasm ⟨data⟩⟩
  | FileFormat.Unknown => .error (ObjectError.new ObjectErrorRepr.UnsupportedObject)
  | FileFormat.Breakpad => .error (ObjectError.new ObjectErrorRepr.UnsupportedObject)

/-- Instrumented `Archive::parse`: same result, paired with the number of
per-format object `Parse::parse` invocations performed.  The body only
stores the buffer in a `MonoArchive` (the Mach-O branch parses the fat
archive header, not a per-format object), so the count is 0. -/
def Archive.parseCounted (E : ObjEnv) (data : Bytes) :
    Except (ObjectError E.ExtErr) (Archive E) × Nat :=
  (Archive.parse E data, 0)

/-- Model of symbolic's external `MachObjectIterator`: the remaining
per-architecture slice results. -/
structure MachObjectIterator (E : ObjEnv) where
  items : List (Except E.ExtErr E.MachObj)

/-- `next` of the external Mach-O slice iterator. -/
def MachObjectIterator.next {E : ObjEnv} (it : MachObjectIterator E) :
    Option (Except E.ExtErr E.MachObj) × MachObjectIterator E :=
  (it.items.head?, ⟨it.items.tail⟩)

/-- `size_hint` of the external Mach-O slice iterator. -/
def MachObjectIterator.sizeHint {E : ObjEnv} (it : MachObjectIterator E) :
    Nat × Option Nat :=
  (it.items.length, some it.items.length)

/-- `ObjectIteratorInner` (`src/symbolic_object/mod.rs:585`). -/
inductive ObjectIteratorInner (E : ObjEnv) where
  | Elf (it : MonoArchiveObjects E.ElfObj E.ExtErr)
  | MachO (it : MachObjectIterator E)
  | Pdb (it : MonoArchiveObjects E.PdbObj E.ExtErr)
  | Pe (it : MonoArchiveObjects E.PeObj E.ExtErr)
  | SourceBundle (it : MonoArchiveObjects E.SrcObj E.ExtErr)
  | Wasm (it : MonoArchiveObjects E.WasmObj E.ExtErr)

/-- `ObjectIterator` (`src/symbolic_object/mod.rs:595`). -/
structure ObjectIterator (E : ObjEnv) where
  inner : ObjectIteratorInner E

/-- `Archive::objects` (`src/symbolic_object/mod.rs:578`): builds the
per-format iterator; the mono branches call `MonoArchive::objects` with
the format's `Parse` impl (which delegates to the external parser). -/
def Archive.objects {E : ObjEnv} (a : Archive E) : ObjectIterator E :=
  match a.inner with
  | .Elf m => ⟨ObjectIteratorInner.Elf (m.objects ⟨E.elfParse, E.elfTest⟩)⟩
  | .MachO m => ⟨ObjectIteratorInner.MachO ⟨E.machArchiveObjects m⟩⟩
  | .Pdb m => ⟨ObjectIteratorInner.Pdb (m.objects ⟨E.pdbParse, E.pdbTest⟩)⟩
  | .Pe m => ⟨ObjectIteratorInner.Pe (m.objects ⟨E.peParse, E.peTest⟩)⟩
  | .SourceBundle m =>
    ⟨ObjectIteratorInner.SourceBundle (m.objects ⟨E.srcParse, E.srcTest⟩)⟩
  | .Wasm m => ⟨ObjectIteratorInner.Wasm (m.objects ⟨E.wasmParse, E.wasmTest⟩)⟩

/-- `Iterator::next` for `ObjectIterator` (`src/symbolic_object/mod.rs:600`):
pulls the inner iterator and wraps item and error (`map_result!`). -/
def ObjectIterator.next {E : ObjEnv} (it : ObjectIterator E) :
    Option (Except (ObjectError E.ExtErr) (Object E)) × ObjectIterator E :=
  match it.inner with
  | .Elf m =>
    ((m.next.1).map (fun r =>
      match r with
      | .ok o => .ok (Object.Elf o)
      | .error e => .error (ObjectError.transparent e)),
     ⟨ObjectIteratorInner.Elf m.next.2⟩)
  | .MachO m =>
    ((m.next.1).map (fun r =>
      match r with
      | .ok o => .ok (Object.MachO o)
      | .error e => .error (ObjectError.transparent e)),
     ⟨ObjectIteratorInner.MachO m.next.2⟩)
  | .Pdb m =>
    ((m.next.1).map (fun r =>
      match r with
      | .ok o => .ok (Object.Pdb o)
      | .error e => .error (ObjectError.transparent e)),
     ⟨ObjectIteratorInner.Pdb m.next.2⟩)
  | .Pe m =>
    ((m.next.1).map (fun r =>
      match r with
      | .ok o => .ok (Object.Pe o)
      | .error e => .error (ObjectError.transparent e)),
     ⟨ObjectIteratorInner.Pe m.next.2⟩)
  | .SourceBundle m =>
    ((m.next.1).map (fun r =>
      match r with
      | .ok o => .ok (Object.SourceBundle o)
      | .error e => .error (ObjectError.transparent e)),
     ⟨ObjectIteratorInner.SourceBundle m.next.2⟩)
  | .Wasm m =>
    ((m.next.1).map (fun r =>
      match r with
      | .ok o => .ok (Object.Wasm o)
      | .error e => .error (ObjectError.transparent e)),
     ⟨ObjectIteratorInner.Wasm m.next.2⟩)

/-- `Iterator::size_hint` for `ObjectIterator` (`src/symbolic_object/mod.rs:607`):
delegates to the inner iterator. -/
def ObjectIterator.sizeHint {E : ObjEnv} (it : ObjectIterator E) :
    Nat × Option Nat :=
  match it.inner with
  | .Elf m => m.sizeHint
  | .MachO m => m.sizeHint
  | .Pdb m => m.sizeHint
  | .Pe m => m.sizeHint
  | .SourceBundle m => m.sizeHint
  | .Wasm m => m.sizeHint

/-! ## Module scanner and `DeclarationSite` (`src/lib.rs`) -/

/-- `symbolic_debuginfo::FileInfo`, abstracted to the string its
`path_str()` method returns (the only use the scanner makes of it). -/
structure FileInfo where
  path_str : String
deriving DecidableEq, Repr

/-- `symbolic_debuginfo::LineInfo`: the (file, line) record; `line` is a
`u64` in the source, modelled as `Nat`. -/
structure LineInfo where
  file : FileInfo
  line : Nat
deriving DecidableEq, Repr

/-- `symbolic_debuginfo::Function`, restricted to the two fields the
crate reads: the raw (mangled) `name` and the ordered `lines` sequence. -/
structure Function where
  name : String
  lines : List LineInfo
deriving DecidableEq, Repr

/-- `DeclarationSite` (`src/lib.rs:151`); `line` is a `u32`. -/
structure DeclarationSite where
  file : String
  line : Nat
deriving DecidableEq, Repr

/-- `DeclarationSiteError` (`src/lib.rs:164`). -/
inductive DeclarationSiteError where
  | MissingLines
deriving DecidableEq, Repr

/-- The `TryFrom<&Function> for DeclarationSite` impl (`src/lib.rs:190`):
`value.lines.get(0).ok_or(MissingLines)?`, then file = `line.file.path_str()`
and line = `line.line as u32` (a truncating `u64 → u32` cast, modelled as
`% 2 ^ 32`). -/
def DeclarationSite.tryFrom (value : Function) :
    Except DeclarationSiteError DeclarationSite :=
  match value.lines.get? 0 with
  | none => .error DeclarationSiteError.MissingLines
  | some line => .ok { file := line.file.path_str, line := line.line % 2 ^ 32 }

/-- `findshlibs::IterationControl` (re-exported in `src/lib.rs:9`). -/
inductive IterationControl where
  | Break
  | Continue
deriving DecidableEq, Repr

/-- External collaborators of the scanner (`src/lib.rs:82`): the
snapshotted shared-library list (name, optional debug name), the current
executable path, the file system, `symbolic_debuginfo`'s archive /
session machinery (abstract carriers `ArchiveV`, `ObjV`, `SessV`) and the
name-only demangler.  Error payloads are never inspected (`Err(_)`), so
one abstract `Err` type covers them. -/
structure ScanEnv where
  ArchiveV : Type
  ObjV : Type
  SessV : Type
  Err : Type
  libraries : List (String × Option String)
  current_exe : Except Err String
  read : String → Except Err Bytes
  parseArchive : Bytes → Except Err ArchiveV
  objectsOf : ArchiveV → List (Except Err ObjV)
  debug_session : ObjV → Except Err SessV
  functionsOf : SessV → List (Except Err Function)
  demangle : String → Option String

/-- The invocation trace of a scan: the `(demangled_name, function)`
arguments of each callback call, in order (instrumentation used to state
the visiting claims; the Rust function returns `()` and communicates only
through the `FnMut` closure's captured state, modelled as `σ`). -/
abbrev Trace := List (String × Function)

/-- Path resolution for one module (`src/lib.rs:100`): prefer the debug
path; an empty library path falls back to `current_exe()` (an error there
skips the module, hence `none`). -/
def resolvePath (E : ScanEnv) (library_path : String)
    (debug_path : Option String) : Option String :=
  match debug_path with
  | some d => some d
  | none =>
    if library_path.length = 0 then
      match E.current_exe with
      | .ok it => some it
      | .error _ => none
    else some library_path

/-- Innermost loop (`src/lib.rs:127`): over the session's function
records — skip failed records, skip non-demangling names, otherwise call
the callback; `Break` stops everything.  Returns the final callback
state, the invocation trace of this loop, and whether it broke. -/
def scanFunctions {σ : Type} (E : ScanEnv)
    (cb : σ → String → Function → σ × IterationControl) :
    σ → List (Except E.Err Function) → σ × Trace × Bool
  | s, [] => (s, [], false)
  | s, .error _ :: rest => scanFunctions E cb s rest
  | s, .ok f :: rest =>
    match E.demangle f.name with
    | none => scanFunctions E cb s rest
    | some dn =>
      match cb s dn f with
      | (s', IterationControl.Break) => (s', [(dn, f)], true)
      | (s', IterationControl.Continue) =>
        let r := scanFunctions E cb s' rest
        (r.1, (dn, f) :: r.2.1, r.2.2)

/-- Middle loop (`src/lib.rs:118`): over the archive's objects — skip
failed objects, skip objects whose `debug_session()` fails, otherwise run
the function loop; a break propagates out. -/
def scanObjects {σ : Type} (E : ScanEnv)
    (cb : σ → String → Function → σ × IterationControl) :
    σ → List (Except E.Err E.ObjV) → σ × Trace × Bool
  | s, [] => (s, [], false)
  | s, .error _ :: rest => scanObjects E cb s rest
  | s, .ok o :: rest =>
    match E.debug_session o with
    | .error _ => scanObjects E cb s rest
    | .ok sess =>
      let r := scanFunctions E cb s (E.functionsOf sess)
      if r.2.2 then (r.1, r.2.1, true)
      else
        let r2 := scanObjects E cb r.1 rest
        (r2.1, r.2.1 ++ r2.2.1, r2.2.2)

/-- Outer loop (`src/lib.rs:99`): over the snapshotted modules — resolve
a path, read the file, parse an archive (each failure skips the module),
then run the object loop; a break returns from the whole function. -/
def scanModules {σ : Type} (E : ScanEnv)
    (cb : σ → String → Function → σ × IterationControl) :
    σ → List (String × Option String) → σ × Trace × Bool
  | s, [] => (s, [], false)
  | s, (library_path, debug_path) :: rest =>
    match resolvePath E library_path debug_path with
    | none => scanModules E cb s rest
    | some path =>
      match E.read path with
      | .error _ => scanModules E cb s rest
      | .ok file_data =>
        match E.parseArchive file_data with
        | .error _ => scanModules E cb s rest
        | .ok archive =>
          let r := scanObjects E cb s (E.objectsOf archive)
          if r.2.2 then (r.1, r.2.1, true)
          else
            let r2 := scanModules E cb r.1 rest
            (r2.1, r.2.1 ++ r2.2.1, r2.2.2)

/-- `for_some_currently_loaded_rust_functions` (`src/lib.rs:82`):
snapshot the libraries, then run the nested best-effort loops.  The Rust
function returns `()`; here it returns the callback's final state and the
invocation trace. -/
def for_some_currently_loaded_rust_functions {σ : Type} (E : ScanEnv)
    (cb : σ → String → Function → σ × IterationControl) (s₀ : σ) :
    σ × Trace :=
  let r := scanModules E cb s₀ E.libraries
  (r.1, r.2.1)

/-- The closure of `declaration_by_name` (`src/lib.rs:53`): on an exact
name match, overwrite `result` with `(&function).try_into().ok()` and
break; otherwise continue. -/
def byNameCallback (name : String) (result : Option DeclarationSite)
    (dn : String) (f : Function) : Option DeclarationSite × IterationControl :=
  if dn = name then ((DeclarationSite.tryFrom f).toOption, IterationControl.Break)
  else (result, IterationControl.Continue)

/-- `declaration_by_name` (`src/lib.rs:51`). -/
def declaration_by_name (E : ScanEnv) (name : String) :
    Option DeclarationSite :=
  (for_some_currently_loaded_rust_functions E (byNameCallback name) none).1

/-! ### The flattened visit order

`visitList E` is the list of `(demangled_name, function)` pairs the scan
would visit if nothing ever broke, in scan order; the scan is then proved
equal to a simple short-circuiting fold over this list. -/

/-- Demangle-filtered function records of one session. -/
def visitFunctions (E : ScanEnv) : List (Except E.Err Function) → Trace
  | [] => []
  | .error _ :: rest => visitFunctions E rest
  | .ok f :: rest =>
    match E.demangle f.name with
    | none => visitFunctions E rest
    | some dn => (dn, f) :: visitFunctions E rest

/-- Visitable functions of an archive's object list. -/
def visitObjects (E : ScanEnv) : List (Except E.Err E.ObjV) → Trace
  | [] => []
  | .error _ :: rest => visitObjects E rest
  | .ok o :: rest =>
    match E.debug_session o with
    | .error _ => visitObjects E rest
    | .ok sess => visitFunctions E (E.functionsOf sess) ++ visitObjects E rest

/-- Visitable functions of one module. -/
def moduleTrace (E : ScanEnv) (library_path : String)
    (debug_path : Option String) : Trace :=
  match resolvePath E library_path debug_path with
  | none => []
  | some path =>
    match E.read path with
    | .error _ => []
    | .ok file_data =>
      match E.parseArchive file_data with
      | .error _ => []
      | .ok archive => visitObjects E (E.objectsOf archive)

/-- Visitable functions of a module list. -/
def visitModules (E : ScanEnv) : List (String × Option String) → Trace
  | [] => []
  | (lp, dp) :: rest => moduleTrace E lp dp ++ visitModules E rest

/-- All `(demangled_name, function)` pairs of the process, in scan order. -/
def visitList (E : ScanEnv) : Trace :=
  visitModules E E.libraries

/-- Short-circuiting fold of a callback over a flat visit list: the
reference semantics of the scan. -/
def runCb {σ : Type} (cb : σ → String → Function → σ × IterationControl) :
    σ → Trace → σ × Trace × Bool
  | s, [] => (s, [], false)
  | s, (dn, f) :: rest =>
    match cb s dn f with
    | (s', IterationControl.Break) => (s', [(dn, f)], true)
    | (s', IterationControl.Continue) =>
      let r := runCb cb s' rest
      (r.1, (dn, f) :: r.2.1, r.2.2)

/-! ## Concrete instantiations used by witnesses and counterexamples -/

/-- The six object-format tags (the constructors of `Object`). -/
def objectFormats : List FileFormat :=
  [FileFormat.Elf, FileFormat.MachO, FileFormat.Pdb, FileFormat.Pe,
   FileFormat.SourceBundle, FileFormat.Wasm]

/-- Session-kind routing table read off the six arms of
`Object::debug_session` (`src/symbolic_object/mod.rs:262`): which session
constructor each format's successful branch applies. -/
def sessionRouteTable : FileFormat → Option SessionKind
  | FileFormat.Elf => some SessionKind.Dwarf
  | FileFormat.MachO => some SessionKind.Dwarf
  | FileFormat.Pdb => some SessionKind.Pdb
  | FileFormat.Pe => some SessionKind.Pe
  | FileFormat.SourceBundle => some SessionKind.SourceBundle
  | FileFormat.Wasm => some SessionKind.Dwarf
  | FileFormat.Unknown => none
  | FileFormat.Breakpad => none

/-- An `ObjEnv` whose carriers are `Unit`, whose format tests all fail and
whose session constructors all succeed. -/
def unitObjEnv : ObjEnv where
  ElfObj := Unit
  MachObj := Unit
  PdbObj := Unit
  PeObj := Unit
  SrcObj := Unit
  WasmObj := Unit
  MachArch := Unit
  DwarfSess := Unit
  PdbSess := Unit
  PeSess := Unit
  SrcSess := Unit
  ExtErr := Unit
  elfTest := fun _ => false
  peTest := fun _ => false
  pdbTest := fun _ => false
  srcTest := fun _ => false
  wasmTest := fun _ => false
  parseMagic := fun _ => none
  machArchiveTest := fun _ => false
  machArchiveParse := fun _ => .ok ()
  machArchiveObjects := fun _ => []
  elfParse := fun _ => .ok ()
  pdbParse := fun _ => .ok ()
  peParse := fun _ => .ok ()
  srcParse := fun _ => .ok ()
  wasmParse := fun _ => .ok ()
  elfSession := fun _ => .ok ()
  machSession := fun _ => .ok ()
  pdbSession := fun _ => .ok ()
  peSession := fun _ => .ok ()
  srcSession := fun _ => .ok ()
  wasmSession := fun _ => .ok ()

/-- `unitObjEnv` with an always-matching ELF signature test. -/
def elfTrueEnv : ObjEnv :=
  { unitObjEnv with elfTest := fun _ => true }

/-- One concrete object per object format over `unitObjEnv` (none for the
two non-object tags). -/
def demoObject : FileFormat → Option (Object unitObjEnv)
  | FileFormat.Elf => some (Object.Elf ())
  | FileFormat.MachO => some (Object.MachO ())
  | FileFormat.Pdb => some (Object.Pdb ())
  | FileFormat.Pe => some (Object.Pe ())
  | FileFormat.SourceBundle => some (Object.SourceBundle ())
  | FileFormat.Wasm => some (Object.Wasm ())
  | FileFormat.Unknown => none
  | FileFormat.Breakpad => none

/-- The session kind `Object::debug_session` actually produces for each
format over `unitObjEnv` (where every session constructor succeeds):
computed from the code, not from the routing table. -/
def demoSessionKind (F : FileFormat) : Option SessionKind :=
  (demoObject F).bind fun o => (o.debug_session).toOption.map ObjectDebugSession.kind

/-- A trivially succeeding `Parse` impl over `Unit`. -/
def unitParse : Parse Unit Unit where
  parse := fun _ => .ok ()
  test := fun _ => true

/-- A `ScanEnv` with one module containing one function named `alpha`. -/
def demoScanEnv : ScanEnv where
  ArchiveV := Unit
  ObjV := Unit
  SessV := Unit
  Err := Unit
  libraries := [("libdemo.so", none)]
  current_exe := .error ()
  read := fun _ => .ok []
  parseArchive := fun _ => .ok ()
  objectsOf := fun _ => [.ok ()]
  debug_session := fun _ => .ok ()
  functionsOf := fun _ => [.ok ⟨"alpha", [⟨⟨"alpha.rs"⟩, 3⟩]⟩]
  demangle := fun n => some n

/-- A `ScanEnv` whose single module yields two functions both demangling
to `target`: the first with an empty line sequence, the second with a
line record. -/
def demoScanEnv2 : ScanEnv where
  ArchiveV := Unit
  ObjV := Unit
  SessV := Unit
  Err := Unit
  libraries := [("libdemo.so", none)]
  current_exe := .error ()
  read := fun _ => .ok []
  parseArchive := fun _ => .ok ()
  objectsOf := fun _ => [.ok ()]
  debug_session := fun _ => .ok ()
  functionsOf := fun _ => [.ok ⟨"target", []⟩, .ok ⟨"target", [⟨⟨"t.rs"⟩, 9⟩]⟩]
  demangle := fun n => some n

/-! ## Theorems -/

/-- Helper: the detector never classifies a buffer as `Breakpad` (the tag
exists only because the vendored enum keeps the variant). -/
theorem peek_ne_breakpad (E : ObjEnv) (data : Bytes) (archive : Bool) :
    peek E data archive ≠ FileFormat.Breakpad := by
  unfold peek
  split_ifs <;> try simp
  all_goals
    cases E.parseMagic data with
    | none => simp
    | some magic => split <;> first | (split_ifs <;> simp) | simp

/-- C3: `peek` is a pure function of its arguments (intrinsic to the
embedding: it is a Lean function of the buffer, the flag and the external
format testers), and every buffer shorter than 16 bytes is classified
`Unknown`, regardless of the buffer's content, of the `allow_multi_arch`
flag, and even of the external format tests. -/
theorem peek_short_unknown (E : ObjEnv) (data : Bytes) (archive : Bool)
    (h : data.length < 16) : peek E data archive = FileFormat.Unknown := by
  unfold peek
  simp [h]

/-- Witness for `peek_short_unknown` at a concrete 3-byte buffer. -/
theorem peek_short_unknown_witness :
    ([1, 2, 3] : Bytes).length < 16 ∧
      peek unitObjEnv [1, 2, 3] true = FileFormat.Unknown :=
  ⟨by decide, peek_short_unknown unitObjEnv [1, 2, 3] true (by decide)⟩

/-- C4: the `allow_multi_arch` flag never changes a non-`Unknown`
classification: if `peek data false` is some tag other than `Unknown`,
`peek data true` is the same tag (the flag can only widen `Unknown` to
`MachO` for fat binaries). -/
theorem peek_flag_monotone (E : ObjEnv) (data : Bytes)
    (h : peek E data false ≠ FileFormat.Unknown) :
    peek E data true = peek E data false := by
  unfold peek at h ⊢
  by_cases h16 : data.length < 16
  · simp [h16] at h
  by_cases h1 : E.elfTest data = true
  · simp [h16, h1]
  by_cases h2 : E.peTest data = true
  · simp [h16, h1, h2]
  by_cases h3 : E.pdbTest data = true
  · simp [h16, h1, h2, h3]
  by_cases h4 : E.srcTest data = true
  · simp [h16, h1, h2, h3, h4]
  by_cases h5 : E.wasmTest data = true
  · simp [h16, h1, h2, h3, h4, h5]
  simp only [if_neg h16, if_neg h1, if_neg h2, if_neg h3, if_neg h4, if_neg h5]
    at h ⊢
  cases hm : E.parseMagic data with
  | none => rfl
  | some magic =>
    rw [hm] at h
    simp only at h
    by_cases hf : magic = FAT_MAGIC
    · exfalso
      apply h
      simp [hf]
    · simp [hf]

/-- Witness for `peek_flag_monotone`: a 16-byte buffer matching the ELF
test classifies `Elf` under both flag values. -/
theorem peek_flag_monotone_witness :
    peek elfTrueEnv (List.replicate 16 0) false ≠ FileFormat.Unknown ∧
      peek elfTrueEnv (List.replicate 16 0) true
        = peek elfTrueEnv (List.replicate 16 0) false :=
  ⟨by decide, peek_flag_monotone elfTrueEnv (List.replicate 16 0) (by decide)⟩

/-- C6: whenever the detector (with `allow_multi_arch = true`) classifies
a buffer as `Unknown`, `Archive::parse` fails, and the error is exactly
the `UnsupportedObject` case of `ObjectError`. -/
theorem archive_parse_unknown_unsupported (E : ObjEnv) (data : Bytes)
    (h : peek E data true = FileFormat.Unknown) :
    Archive.parse E data
      = .error (ObjectError.new ObjectErrorRepr.UnsupportedObject) := by
  unfold Archive.parse Archive.peek
  rw [h]

/-- Witness for `archive_parse_unknown_unsupported` at the empty buffer. -/
theorem archive_parse_unknown_unsupported_witness :
    peek unitObjEnv [] true = FileFormat.Unknown ∧
      Archive.parse unitObjEnv []
        = .error (ObjectError.new ObjectErrorRepr.UnsupportedObject) :=
  ⟨rfl, archive_parse_unknown_unsupported unitObjEnv [] rfl⟩

/-- C7: for every archive of a non-Mach-O format, `objects()` yields
exactly one item: the size hint before the first pull is `(1, some 1)`;
the first `next` returns the single (possibly failed) object result; the
exhausted iterator has size hint `(0, some 0)` and its `next` returns
`none` while leaving the state unchanged (so every subsequent call also
returns `none`). -/
theorem mono_archive_objects_exactly_one (E : ObjEnv) (a : Archive E)
    (h : a.format ≠ FileFormat.MachO) :
    (a.objects).sizeHint = (1, some 1) ∧
    (∃ item, ((a.objects).next).1 = some item) ∧
    (((a.objects).next).2).sizeHint = (0, some 0) ∧
    (((a.objects).next).2).next = (none, ((a.objects).next).2) := by
  obtain ⟨inner⟩ := a
  cases inner with
  | MachO m => exact absurd rfl h
  | Elf m => exact ⟨rfl, ⟨_, rfl⟩, rfl, rfl⟩
  | Pdb m => exact ⟨rfl, ⟨_, rfl⟩, rfl, rfl⟩
  | Pe m => exact ⟨rfl, ⟨_, rfl⟩, rfl, rfl⟩
  | SourceBundle m => exact ⟨rfl, ⟨_, rfl⟩, rfl, rfl⟩
  | Wasm m => exact ⟨rfl, ⟨_, rfl⟩, rfl, rfl⟩

/-- Witness for `mono_archive_objects_exactly_one` at a concrete ELF
archive. -/
theorem mono_archive_objects_exactly_one_witness :
    Archive.format (⟨ArchiveInner.Elf ⟨[]⟩⟩ : Archive unitObjEnv)
        ≠ FileFormat.MachO ∧
    ((⟨ArchiveInner.Elf ⟨[]⟩⟩ : Archive unitObjEnv).objects).sizeHint
        = (1, some 1) ∧
    (∃ item,
      (((⟨ArchiveInner.Elf ⟨[]⟩⟩ : Archive unitObjEnv).objects).next).1
        = some item) ∧
    ((((⟨ArchiveInner.Elf ⟨[]⟩⟩ : Archive unitObjEnv).objects).next).2).sizeHint
        = (0, some 0) ∧
    ((((⟨ArchiveInner.Elf ⟨[]⟩⟩ : Archive unitObjEnv).objects).next).2).next
        = (none,
           (((⟨ArchiveInner.Elf ⟨[]⟩⟩ : Archive unitObjEnv).objects).next).2) :=
  ⟨by decide,
   mono_archive_objects_exactly_one unitObjEnv ⟨ArchiveInner.Elf ⟨[]⟩⟩ (by decide)⟩

/-- C9 counterexample: over an environment where every per-format session
constructor succeeds, the number of object formats whose
`Object::debug_session` produces the DWARF session kind is three, not
two — `Elf`, `MachO` and `Wasm` all route to `Dwarf`. -/
theorem debug_session_dwarf_three_cex :
    (objectFormats.filter
        (fun F => demoSessionKind F = some SessionKind.Dwarf)).length = 3 ∧
    ¬ (objectFormats.filter
        (fun F => demoSessionKind F = some SessionKind.Dwarf)).length = 2 := by
  decide

/-- C9 (amended): `Object::debug_session` routes each format to the
session kind given by `sessionRouteTable`; exactly three of the six
object formats (`Elf`, `MachO`, `Wasm` — the three that embed DWARF)
share the `Dwarf` kind, and each of the remaining three maps to its own
distinct kind. -/
theorem debug_session_route :
    (∀ (E : ObjEnv) (o : Object E) (s : ObjectDebugSession E),
        Object.debug_session o = .ok s →
        some s.kind = sessionRouteTable (Object.file_format o)) ∧
    (objectFormats.filter
        (fun F => sessionRouteTable F = some SessionKind.Dwarf))
      = [FileFormat.Elf, FileFormat.MachO, FileFormat.Wasm] ∧
    (objectFormats.filter
        (fun F => sessionRouteTable F = some SessionKind.Pdb))
      = [FileFormat.Pdb] ∧
    (objectFormats.filter
        (fun F => sessionRouteTable F = some SessionKind.Pe))
      = [FileFormat.Pe] ∧
    (objectFormats.filter
        (fun F => sessionRouteTable F = some SessionKind.SourceBundle))
      = [FileFormat.SourceBundle] := by
  refine ⟨?_, by decide, by decide, by decide, by decide⟩
  intro E o s h
  cases o <;> simp only [Object.debug_session] at h <;>
    split at h <;> cases h <;> rfl

/-- Witness for `debug_session_route` at a concrete ELF object. -/
theorem debug_session_route_witness :
    Object.debug_session (Object.Elf () : Object unitObjEnv)
        = .ok (ObjectDebugSession.Dwarf ()) ∧
    some (ObjectDebugSession.kind
            (ObjectDebugSession.Dwarf () : ObjectDebugSession unitObjEnv))
      = sessionRouteTable (Object.file_format (Object.Elf () : Object unitObjEnv)) :=
  ⟨rfl, debug_session_route.1 unitObjEnv (Object.Elf ())
          (ObjectDebugSession.Dwarf ()) rfl⟩

/-- C8 counterexample: at a concrete mono archive, constructing the
`objects()` iterator performs one `Parse::parse` invocation and the first
pull performs zero — so the per-format parse does not happen "on the
first pull of the objects() sequence". -/
theorem objects_parse_timing_cex :
    ((MonoArchive.objectsCounted (⟨[]⟩ : MonoArchive Unit) unitParse).2 = 1 ∧
     ((MonoArchive.objectsCounted (⟨[]⟩ : MonoArchive Unit) unitParse).1.nextCounted).2
        = 0) ∧
    ¬ ((MonoArchive.objectsCounted (⟨[]⟩ : MonoArchive Unit) unitParse).2 = 0 ∧
       ((MonoArchive.objectsCounted (⟨[]⟩ : MonoArchive Unit) unitParse).1.nextCounted).2
          = 1) := by
  decide

/-- C8 (amended): for non-Mach-O formats the per-format object parse is
deferred past `Archive` construction but happens when `objects()` is
called (iterator construction), not on the first pull: `Archive::parse`
performs no object parse and succeeds whenever the detector recognizes
the format (however malformed the object data); `objects()` performs
exactly one parse; `next` performs none; and a failed parse surfaces as
the single yielded item. -/
theorem mono_parse_at_objects_call :
    (∀ (E : ObjEnv) (data : Bytes),
        Archive.peek E data ≠ FileFormat.MachO →
        Archive.peek E data ≠ FileFormat.Unknown →
        (Archive.parseCounted E data).2 = 0 ∧
        ∃ a, Archive.parse E data = .ok a) ∧
    (∀ (P ε : Type) (pr : Parse P ε) (a : MonoArchive P),
        (a.objectsCounted pr).2 = 1 ∧
        (∀ it : MonoArchiveObjects P ε, it.nextCounted.2 = 0) ∧
        (∀ e, pr.parse a.data = .error e →
          (a.objects pr).next = (some (.error e), ⟨none⟩))) := by
  constructor
  · intro E data h1 h2
    refine ⟨rfl, ?_⟩
    unfold Archive.parse
    cases hf : Archive.peek E data with
    | Unknown => exact absurd hf h2
    | Breakpad => exact absurd hf (peek_ne_breakpad E data true)
    | MachO => exact absurd hf h1
    | Elf => exact ⟨_, rfl⟩
    | Pdb => exact ⟨_, rfl⟩
    | Pe => exact ⟨_, rfl⟩
    | SourceBundle => exact ⟨_, rfl⟩
    | Wasm => exact ⟨_, rfl⟩
  · intro P ε pr a
    refine ⟨rfl, fun _ => rfl, fun e he => ?_⟩
    unfold MonoArchive.objects MonoArchive.object MonoArchiveObjects.next
    rw [he]

/-- Witness for `mono_parse_at_objects_call`: an ELF-classified 16-byte
buffer parses into an archive with zero object parses. -/
theorem mono_parse_at_objects_call_witness :
    (Archive.parseCounted elfTrueEnv (List.replicate 16 0)).2 = 0 ∧
    ∃ a, Archive.parse elfTrueEnv (List.replicate 16 0) = .ok a :=
  mono_parse_at_objects_call.1 elfTrueEnv (List.replicate 16 0)
    (by decide) (by decide)

/-- C1 (amended): deriving a `DeclarationSite` from a `Function` fails
with `MissingLines` exactly when the line sequence is empty; otherwise
the result's file is the path of the element at index 0 and the line is
that element's line number reduced modulo `2 ^ 32` (the `as u32` cast),
regardless of how many further line records follow. -/
theorem tryFrom_missingLines_iff_first_line (f : Function) :
    (DeclarationSite.tryFrom f = .error DeclarationSiteError.MissingLines
      ↔ f.lines = []) ∧
    (∀ l rest, f.lines = l :: rest →
      DeclarationSite.tryFrom f = .ok ⟨l.file.path_str, l.line % 2 ^ 32⟩) := by
  cases hf : f.lines with
  | nil =>
    refine ⟨by simp [DeclarationSite.tryFrom, hf], ?_⟩
    intro l rest hcons
    simp at hcons
  | cons l rest =>
    refine ⟨by simp [DeclarationSite.tryFrom, hf], ?_⟩
    intro l' rest' hcons
    simp only [List.cons.injEq] at hcons
    obtain ⟨rfl, rfl⟩ := hcons
    simp [DeclarationSite.tryFrom, hf]

/-- Witness for `tryFrom_missingLines_iff_first_line`: the empty-lines
function fails with `MissingLines`, a one-line function succeeds with its
first record. -/
theorem tryFrom_first_line_witness :
    DeclarationSite.tryFrom ⟨"g", []⟩
        = .error DeclarationSiteError.MissingLines ∧
    DeclarationSite.tryFrom ⟨"g", [⟨⟨"a.rs"⟩, 7⟩]⟩
        = .ok ⟨"a.rs", 7 % 2 ^ 32⟩ :=
  ⟨(tryFrom_missingLines_iff_first_line ⟨"g", []⟩).1.mpr rfl,
   (tryFrom_missingLines_iff_first_line ⟨"g", [⟨⟨"a.rs"⟩, 7⟩]⟩).2 _ _ rfl⟩

/-- C1 counterexample: the `line.line as u32` cast truncates, so for a
first line record with line number `2 ^ 32` the derived site's line is
`0`, not the record's line number. -/
theorem tryFrom_u32_truncation_cex :
    DeclarationSite.tryFrom ⟨"g", [⟨⟨"a.rs"⟩, 2 ^ 32⟩]⟩ = .ok ⟨"a.rs", 0⟩ ∧
    (2 ^ 32 : Nat) ≠ 0 := by
  refine ⟨?_, by decide⟩
  unfold DeclarationSite.tryFrom
  norm_num

/-- Helper: folding a callback over an appended visit list runs the first
part and, unless it broke, continues with the second from the reached
state. -/
theorem runCb_append {σ : Type}
    (cb : σ → String → Function → σ × IterationControl) (s : σ)
    (t₁ t₂ : Trace) :
    runCb cb s (t₁ ++ t₂) =
      if (runCb cb s t₁).2.2 then
        ((runCb cb s t₁).1, (runCb cb s t₁).2.1, true)
      else
        ((runCb cb (runCb cb s t₁).1 t₂).1,
         (runCb cb s t₁).2.1 ++ (runCb cb (runCb cb s t₁).1 t₂).2.1,
         (runCb cb (runCb cb s t₁).1 t₂).2.2) := by
  induction t₁ generalizing s with
  | nil => simp [runCb]
  | cons hd tl ih =>
    obtain ⟨dn, f⟩ := hd
    cases hcb : cb s dn f with
    | mk s' c =>
      cases c with
      | Break => simp [runCb, hcb]
      | Continue =>
        simp only [List.cons_append, runCb, hcb, List.append_eq]
        rw [ih]
        by_cases hb : (runCb cb s' tl).2.2 <;> simp [hb]

/-- Helper: the innermost loop of the scan equals the short-circuiting
fold over the demangle-filtered function records. -/
theorem scanFunctions_eq {σ : Type} (E : ScanEnv)
    (cb : σ → String → Function → σ × IterationControl) (s : σ)
    (fs : List (Except E.Err Function)) :
    scanFunctions E cb s fs = runCb cb s (visitFunctions E fs) := by
  induction fs generalizing s with
  | nil => rfl
  | cons hd tl ih =>
    cases hd with
    | error e => simp [scanFunctions, visitFunctions, ih]
    | ok f =>
      cases hdm : E.demangle f.name with
      | none => simp [scanFunctions, visitFunctions, hdm, ih]
      | some dn =>
        simp only [scanFunctions, visitFunctions, hdm]
        cases hcb : cb s dn f with
        | mk s' c => cases c <;> simp [runCb, hcb, ih]

/-- Helper: the object loop of the scan equals the short-circuiting fold
over the archive's visitable functions. -/
theorem scanObjects_eq {σ : Type} (E : ScanEnv)
    (cb : σ → String → Function → σ × IterationControl) (s : σ)
    (os : List (Except E.Err E.ObjV)) :
    scanObjects E cb s os = runCb cb s (visitObjects E os) := by
  induction os generalizing s with
  | nil => rfl
  | cons hd tl ih =>
    cases hd with
    | error e => simp [scanObjects, visitObjects, ih]
    | ok o =>
      cases hds : E.debug_session o with
      | error e => simp [scanObjects, visitObjects, hds, ih]
      | ok sess =>
        simp only [scanObjects, visitObjects, hds]
        rw [scanFunctions_eq, runCb_append, ih]

/-- Helper: the module loop of the scan equals the short-circuiting fold
over the whole flattened visit list. -/
theorem scanModules_eq {σ : Type} (E : ScanEnv)
    (cb : σ → String → Function → σ × IterationControl) (s : σ)
    (ms : List (String × Option String)) :
    scanModules E cb s ms = runCb cb s (visitModules E ms) := by
  induction ms generalizing s with
  | nil => rfl
  | cons hd tl ih =>
    obtain ⟨lp, dp⟩ := hd
    simp only [scanModules, visitModules, moduleTrace]
    cases hp : resolvePath E lp dp with
    | none => simp [hp, ih]
    | some path =>
      cases hr : E.read path with
      | error e => simp [hp, hr, ih]
      | ok file_data =>
        cases ha : E.parseArchive file_data with
        | error e => simp [hp, hr, ha, ih]
        | ok archive =>
          simp only [hp, hr, ha]
          rw [scanObjects_eq, runCb_append, ih]

/-- Helper: the whole scan is the short-circuiting fold of the callback
over `visitList`. -/
theorem for_some_eq_runCb {σ : Type} (E : ScanEnv)
    (cb : σ → String → Function → σ × IterationControl) (s₀ : σ) :
    for_some_currently_loaded_rust_functions E cb s₀ =
      ((runCb cb s₀ (visitList E)).1, (runCb cb s₀ (visitList E)).2.1) := by
  unfold for_some_currently_loaded_rust_functions visitList
  rw [scanModules_eq]

/-- Helper: over a visit list with no name match, the by-name callback
keeps its state, visits everything, and never breaks. -/
theorem runCb_byName_nomatch (name : String) (l : Trace)
    (h : ∀ dn g, (dn, g) ∈ l → dn ≠ name) (r : Option DeclarationSite) :
    runCb (byNameCallback name) r l = (r, l, false) := by
  induction l generalizing r with
  | nil => rfl
  | cons hd tl ih =>
    obtain ⟨dn, g⟩ := hd
    have hdn : dn ≠ name := h dn g (List.mem_cons_self _ _)
    simp only [runCb, byNameCallback, if_neg hdn]
    rw [ih (fun dn' g' hm => h dn' g' (List.mem_cons_of_mem _ hm))]

/-- C2: if no loaded module yields a function whose demangled name equals
the target, `declaration_by_name` returns `none`, and it does so after
visiting every snapshotted module's visitable function (the trace is the
entire visit list); by construction the embedding is a total function
into `Option DeclarationSite`, so no error can reach the caller — every
failure inside the scan is a skipped item of `visitList`. -/
theorem declaration_by_name_no_match (E : ScanEnv) (name : String)
    (h : ∀ dn f, (dn, f) ∈ visitList E → dn ≠ name) :
    declaration_by_name E name = none ∧
    (for_some_currently_loaded_rust_functions E (byNameCallback name) none).2
      = visitList E := by
  unfold declaration_by_name
  rw [for_some_eq_runCb, runCb_byName_nomatch name _ h none]
  exact ⟨rfl, rfl⟩

/-- Witness for `declaration_by_name_no_match`: the demo environment
contains only a function named `alpha`, so looking up `beta` misses. -/
theorem declaration_by_name_no_match_witness :
    declaration_by_name demoScanEnv "beta" = none ∧
    (for_some_currently_loaded_rust_functions demoScanEnv
        (byNameCallback "beta") none).2 = visitList demoScanEnv :=
  declaration_by_name_no_match demoScanEnv "beta" (by
    intro dn f hm
    rw [show visitList demoScanEnv
          = [("alpha", ⟨"alpha", [⟨⟨"alpha.rs"⟩, 3⟩]⟩)] from rfl] at hm
    simp only [List.mem_singleton, Prod.mk.injEq] at hm
    rw [hm.1]
    decide)

/-- C5: a handler that signals `Break` on every invocation is invoked at
most once by the generalized scan — at most one function is visited in
the whole process. -/
theorem scan_break_visits_at_most_one {σ : Type} (E : ScanEnv)
    (cb : σ → String → Function → σ × IterationControl) (s₀ : σ)
    (h : ∀ s dn f, (cb s dn f).2 = IterationControl.Break) :
    (for_some_currently_loaded_rust_functions E cb s₀).2.length ≤ 1 := by
  rw [for_some_eq_runCb]
  cases hv : visitList E with
  | nil => simp [runCb]
  | cons hd tl =>
    obtain ⟨dn, f⟩ := hd
    have hc := h s₀ dn f
    simp only [runCb]
    cases hcb : cb s₀ dn f with
    | mk s' c =>
      rw [hcb] at hc
      simp only at hc
      subst hc
      simp

/-- Witness for `scan_break_visits_at_most_one` with the constant-`Break`
handler over the demo environment (whose visit list is nonempty). -/
theorem scan_break_visits_at_most_one_witness :
    (for_some_currently_loaded_rust_functions demoScanEnv
        (fun (s : Unit) _ _ => (s, IterationControl.Break)) ()).2.length ≤ 1 :=
  scan_break_visits_at_most_one demoScanEnv _ () (fun _ _ _ => rfl)

/-- C10: when the first function in scan order whose demangled name
equals the target has an empty line sequence, `declaration_by_name`
returns `none`: the `MissingLines` failure is discarded, the scan still
stops at that match (the trace ends there), and no later function — even
one with the same name and usable lines — is consulted. -/
theorem declaration_by_name_first_match_empty_lines (E : ScanEnv)
    (name : String) (pre post : Trace) (f : Function)
    (hv : visitList E = pre ++ (name, f) :: post)
    (hpre : ∀ dn g, (dn, g) ∈ pre → dn ≠ name)
    (hlines : f.lines = []) :
    declaration_by_name E name = none ∧
    (for_some_currently_loaded_rust_functions E (byNameCallback name) none).2
      = pre ++ [(name, f)] := by
  have htf : DeclarationSite.tryFrom f
      = .error DeclarationSiteError.MissingLines := by
    simp [DeclarationSite.tryFrom, hlines]
  have hstep : runCb (byNameCallback name) none ((name, f) :: post)
      = (none, [(name, f)], true) := by
    simp [runCb, byNameCallback, htf, Except.toOption]
  unfold declaration_by_name
  rw [for_some_eq_runCb, hv, runCb_append,
    runCb_byName_nomatch name pre hpre none]
  simp [hstep]

/-- Witness for `declaration_by_name_first_match_empty_lines`: the first
`target` function of `demoScanEnv2` has no lines; the lookup returns
`none` and the second `target` function is never visited. -/
theorem declaration_by_name_first_match_empty_lines_witness :
    declaration_by_name demoScanEnv2 "target" = none ∧
    (for_some_currently_loaded_rust_functions demoScanEnv2
        (byNameCallback "target") none).2
      = [] ++ [("target", ⟨"target", []⟩)] :=
  declaration_by_name_first_match_empty_lines demoScanEnv2 "target" []
    [("target", ⟨"target", [⟨⟨"t.rs"⟩, 9⟩]⟩)] ⟨"target", []⟩ rfl
    (fun _ _ hm => absurd hm (List.not_mem_nil _)) rfl

end DeclSite
